import Mathlib

set_option maxRecDepth 100000

/-!
Verification development for the sippy ingestion and aggregation pipeline
(package db, package testidentification, and the load command).

Go strings are modelled as Lean `String`; the string algorithms
(`strings.ReplaceAll`, prefix tests) are implemented over `String.data`
(`List Char`) with structural recursion so that every definition is
executable and concrete instances can be settled by `decide`.

Database effects are modelled by explicit state passing: the relevant
slice of postgres state (which materialized views exist, which CREATE
statements were executed, which refresh requests were issued, which suite
rows exist) is a record, and each Go function that talks to the database
becomes a function from state to state.  External transport failures of
the SQL connection are not modelled: the state transition describes the
behaviour of the code when the database responds, which is the success
path every claim below quantifies over.
-/

namespace Sippy

/-- Fuel-indexed core of `strings.ReplaceAll`: scan the text left to right;
whenever the key `k` is a prefix of the remaining text, emit the value `v`
and resume after the matched occurrence, otherwise keep the head character.
The fuel is only there to make the recursion structural; `replaceAllList`
instantiates it with the length of the text, which is always enough because
every step consumes at least one character. -/
def replaceAllFuel (k v : List Char) : Nat → List Char → List Char
  | _, [] => []
  | 0, s => s
  | fuel+1, c :: cs =>
    if k.isPrefixOf (c :: cs) then
      v ++ replaceAllFuel k v fuel (List.drop (k.length - 1) cs)
    else
      c :: replaceAllFuel k v fuel cs

/-- `strings.ReplaceAll` on `List Char` (replace every non-overlapping
occurrence of `k` by `v`, scanning left to right).  Go returns the text
unchanged for an empty key with respect to occurrences that matter here;
the catalog only ever uses non-empty keys. -/
def replaceAllList (k v s : List Char) : List Char :=
  if k.isEmpty then s else replaceAllFuel k v s.length s

/-- `strings.ReplaceAll(s, k, v)` lifted back to `String`. -/
def stringReplaceAll (s k v : String) : String :=
  ⟨replaceAllList k.data v.data s.data⟩

/-- Does the text contain `k` as a (contiguous) substring? -/
def containsSub (k : List Char) : List Char → Bool
  | [] => k.isEmpty
  | c :: cs => k.isPrefixOf (c :: cs) || containsSub k cs

/-- `strings.Contains(s, k)` on `String`. -/
def stringContains (s k : String) : Bool :=
  containsSub k.data s.data

/-- The loop body of `createPostgresMaterializedViews` substitutes every
replace-string into the view definition:
`for k, v := range pmv.ReplaceStrings { vd = strings.ReplaceAll(vd, k, v) }`.
The Go map is modelled as an association list in source order; for the
catalog below the replacement values contain no key, so the iteration
order of the map cannot change the result. -/
def applyReplaceStrings (d : String) (rs : List (String × String)) : String :=
  rs.foldl (fun acc kv => stringReplaceAll acc kv.1 kv.2) d

/-- Mirror of the Go struct `PostgresMaterializedView` (pkg db). -/
structure PostgresMaterializedView where
  Name : String
  Definition : String
  ReplaceStrings : List (String × String)

/-- The `testReportMatView` SQL template constant (pkg db). -/
def testReportMatView : String := "
SELECT 
	tests.name AS name,
	coalesce(count(case when status = 1 AND timestamp BETWEEN |||START||| AND |||BOUNDARY||| then 1 end), 0) AS previous_successes,
    coalesce(count(case when status = 13 AND timestamp BETWEEN |||START||| AND |||BOUNDARY||| then 1 end), 0) AS previous_flakes,
    coalesce(count(case when status = 12 AND timestamp BETWEEN |||START||| AND |||BOUNDARY||| then 1 end), 0) AS previous_failures,
    coalesce(count(case when timestamp BETWEEN |||START||| AND |||BOUNDARY||| then 1 end), 0) as previous_runs,
    coalesce(count(case when status = 1 AND timestamp BETWEEN |||BOUNDARY||| AND |||END||| then 1 end), 0) AS current_successes,
    coalesce(count(case when status = 13 AND timestamp BETWEEN |||BOUNDARY||| AND |||END||| then 1 end), 0) AS current_flakes,
    coalesce(count(case when status = 12 AND timestamp BETWEEN |||BOUNDARY||| AND |||END||| then 1 end), 0) AS current_failures,
    coalesce(count(case when timestamp BETWEEN |||BOUNDARY||| AND |||END||| then 1 end), 0) as current_runs,
    prow_jobs.variants, prow_jobs.release
FROM prow_job_run_tests
    JOIN tests ON tests.id = prow_job_run_tests.test_id
    JOIN prow_job_runs ON prow_job_runs.id = prow_job_run_tests.prow_job_run_id
    JOIN prow_jobs ON prow_job_runs.prow_job_id = prow_jobs.id
GROUP BY tests.name, prow_jobs.variants, prow_jobs.release
"

/-- The `testAnalysisByVariantMatView` SQL template constant (pkg db). -/
def testAnalysisByVariantMatView : String := "
SELECT 
       tests.id AS test_id,
       tests.name AS test_name,
       date(prow_job_runs.timestamp) AS date,
       unnest(prow_jobs.variants) AS variant, 
       prow_jobs.release AS release,
       coalesce(count(case when timestamp BETWEEN NOW() - INTERVAL \x2714 DAY\x27 AND NOW() then 1 end), 0) as runs,
       coalesce(count(case when status = 1 AND timestamp BETWEEN NOW() - INTERVAL \x2714 DAY\x27 AND NOW() then 1 end), 0) AS passes,
       coalesce(count(case when status = 13 AND timestamp BETWEEN NOW() - INTERVAL \x2714 DAY\x27 AND NOW() then 1 end), 0) AS flakes,
       coalesce(count(case when status = 12 AND timestamp BETWEEN NOW() - INTERVAL \x2714 DAY\x27 AND NOW() then 1 end), 0) AS failures
FROM prow_job_run_tests
         JOIN tests ON tests.id = prow_job_run_tests.test_id
         JOIN prow_job_runs ON prow_job_runs.id = prow_job_run_tests.prow_job_run_id
         JOIN prow_jobs ON prow_jobs.id = prow_job_runs.prow_job_id
WHERE timestamp > NOW() - INTERVAL \x2714 DAY\x27
GROUP BY tests.name, tests.id, date, variant, release
"

/-- The `testAnalysisByJobMatView` SQL template constant (pkg db). -/
def testAnalysisByJobMatView : String := "
SELECT 
       tests.id AS test_id,
       tests.name AS test_name,
       date(prow_job_runs.timestamp) AS date,
       prow_jobs.release AS release,
       prow_jobs.name AS job_name,
       coalesce(count(case when timestamp BETWEEN NOW() - INTERVAL \x2714 DAY\x27 AND NOW() then 1 end), 0) as runs,
       coalesce(count(case when status = 1 AND timestamp BETWEEN NOW() - INTERVAL \x2714 DAY\x27 AND NOW() then 1 end), 0) AS passes,
       coalesce(count(case when status = 13 AND timestamp BETWEEN NOW() - INTERVAL \x2714 DAY\x27 AND NOW() then 1 end), 0) AS flakes,
       coalesce(count(case when status = 12 AND timestamp BETWEEN NOW() - INTERVAL \x2714 DAY\x27 AND NOW() then 1 end), 0) AS failures
FROM prow_job_run_tests
         JOIN tests ON tests.id = prow_job_run_tests.test_id
         JOIN prow_job_runs ON prow_job_runs.id = prow_job_run_tests.prow_job_run_id
         JOIN prow_jobs ON prow_jobs.id = prow_job_runs.prow_job_id
WHERE timestamp > NOW() - INTERVAL \x2714 DAY\x27
GROUP BY tests.name, tests.id, date, release, job_name
"

/-- The materialized-view catalog `PostgresMatViews` (pkg db), in source
order.  The Go `ReplaceStrings` map literals become association lists in
literal order. -/
def PostgresMatViews : List PostgresMaterializedView :=
  [ { Name := "prow_test_report_7d_matview"
      Definition := testReportMatView
      ReplaceStrings :=
        [ ("|||START|||", "NOW() - INTERVAL \x2714 DAY\x27")
        , ("|||BOUNDARY|||", "NOW() - INTERVAL \x277 DAY\x27")
        , ("|||END|||", "NOW()") ] }
  , { Name := "prow_test_analysis_by_variant_14d_matview"
      Definition := testAnalysisByVariantMatView
      ReplaceStrings := [] }
  , { Name := "prow_test_analysis_by_job_14d_matview"
      Definition := testAnalysisByJobMatView
      ReplaceStrings := [] }
  , { Name := "prow_test_report_2d_matview"
      Definition := testReportMatView
      ReplaceStrings :=
        [ ("|||START|||", "NOW() - INTERVAL \x279 DAY\x27")
        , ("|||BOUNDARY|||", "NOW() - INTERVAL \x272 DAY\x27")
        , ("|||END|||", "NOW()") ] } ]

/-- The slice of postgres state touched by the db package startup code:
`matviews` is the set of names present in `pg_matviews` (the `SELECT
COUNT(*) FROM pg_matviews WHERE matviewname = ?` probe reads it),
`created` records every executed `CREATE MATERIALIZED VIEW name AS
definition` statement, `refreshRequests` records every issued refresh of a
materialized view (`REFRESH MATERIALIZED VIEW`), and `suites` is the set
of names present in the `suites` table. -/
structure PgState where
  matviews : List String
  created : List (String × String)
  refreshRequests : List String
  suites : List String
deriving DecidableEq

/-- One iteration of the loop in `createPostgresMaterializedViews` (pkg
db): probe `pg_matviews` for the entry name; when the count is 0,
substitute the replace-strings into the definition and execute the CREATE
statement; otherwise do nothing for this entry. -/
def createMatViewStep (st : PgState) (pmv : PostgresMaterializedView) : PgState :=
  if pmv.Name ∈ st.matviews then st
  else
    let vd := applyReplaceStrings pmv.Definition pmv.ReplaceStrings
    { st with
      matviews := st.matviews ++ [pmv.Name]
      created := st.created ++ [(pmv.Name, vd)] }

/-- `createPostgresMaterializedViews` (pkg db): iterate the catalog in
order and return `nil` (the loop body only returns early when the SQL
transport itself fails, which is outside the model; see the header
comment). -/
def createPostgresMaterializedViews (st : PgState) : PgState × Option String :=
  (PostgresMatViews.foldl createMatViewStep st, none)

/-- `testSuitePrefixes` (pkg db): the fixed registry of known test-suite
names, in source order (the commented-out candidates in the source are not
part of the registry). -/
def testSuitePrefixes : List String :=
  ["openshift-tests", "openshift-tests-upgrade", "sippy"]

/-- One iteration of the loop in `populateTestSuitesInDB` (pkg db): query
the `suites` table for a row with the given name (`First`); when the row
is absent (`gorm.ErrRecordNotFound`), insert it; when it is present,
leave the table alone. -/
def addSuiteIfMissing (acc : PgState) (suiteName : String) : PgState :=
  if suiteName ∈ acc.suites then acc
  else { acc with suites := acc.suites ++ [suiteName] }

/-- `populateTestSuitesInDB` (pkg db): seed every registry name into the
`suites` table.  Rows are never deleted. -/
def populateTestSuitesInDB (st : PgState) : PgState :=
  testSuitePrefixes.foldl addSuiteIfMissing st

/-- Mirror of the Go struct `DB` (pkg db): the handle plus the batch-size
bound used for batched inserts.  The comment in the source fixes the
engine ceiling: postgres supports a maximum of 2^16 records per insert. -/
structure DB where
  BatchSize : Nat

/-- The postgres per-insert row ceiling named in the `DB.BatchSize`
comment (2^16 records per insert). -/
def postgresMaxRowsPerInsert : Nat := 2 ^ 16

/-- `New` (pkg db), success path: after the migrations (external to the
model), seed the suite registry with `populateTestSuitesInDB`, create the
missing materialized views with `createPostgresMaterializedViews`, and
return a client with `BatchSize: 1024`. -/
def NewDBClient (st : PgState) : DB × PgState :=
  let st1 := populateTestSuitesInDB st
  let st2 := (createPostgresMaterializedViews st1).1
  ({ BatchSize := 1024 }, st2)

/-- Outcome of a SQL query against one table, as seen by `DB.LastID`. -/
inductive QueryOutcome (α : Type) where
  | ok (val : α)
  | failed (msg : String)
deriving DecidableEq

/-- The query issued by `DB.LastID` (pkg db):
`Table(table).Order("id desc").Limit(1).Select("id").Scan(&lastID)`.
The store is a list of tables, each a list of ids.  A missing table makes
the query fail; an empty table returns no rows, so the scan leaves the
zero value in `lastID` and reports no error. -/
def lastIDQuery (tables : List (String × List Int)) (table : String) : QueryOutcome Int :=
  match tables.lookup table with
  | none => .failed "relation does not exist"
  | some ids =>
    match ids.max? with
    | none => .ok 0
    | some m => .ok m

/-- `DB.LastID` (pkg db): on a query error, log it and fall back to 0;
otherwise return the scanned id.  The Go signature returns a plain `int`,
so no error can propagate to the caller. -/
def LastID (tables : List (String × List Int)) (table : String) : Int :=
  match lastIDQuery tables table with
  | .failed _ => 0
  | .ok v => v

/-- Chunking of a batched insert into sub-batches of at most `n` rows
(`n = DB.BatchSize` at every call site; the ORM primitive `CreateInBatches`
that performs it is outside the given sources).  Modelled from the spec:
a batch write of more rows than the configured ceiling is chunked into
multiple sub-batches, applied in order. -/
def chunkRows {α : Type} (n : Nat) : List α → List (List α)
  | [] => []
  | x :: xs => (x :: List.take (n - 1) xs) :: chunkRows n (List.drop (n - 1) xs)
termination_by l => l.length
decreasing_by
  simp only [List.length_drop, List.length_cons]
  omega

/-! The load command (`NewLoadCommand`, cmd/sippy).  A `DataLoader` is the
interface value placed in the `loaders` slice; for the claims about the
command we only need what a loader does when run: it commits some writes
to the store and reports a sequence of fatal errors.  `W` is the row
type. -/
structure DataLoader (W : Type) where
  name : String
  writes : List W
  errs : List String

/-- Observable events of one invocation of the load command, used to state
ordering properties: one event per loader whose `Load` ran, one event for
the `RefreshData` call. -/
inductive LoadEvent where
  | loaderLoad (name : String)
  | refreshData
deriving DecidableEq

/-- Modelled from the spec: the metrics-wrapped coordinator
(`loaderwithmetrics.New(loaders)`, whose package is not among the given
sources).  Per the spec it invokes every selected loader in sequence and
`Errors()` collects every fatal error encountered, in order.  The fold
returns the store after all loaders committed their writes, the collected
fatal errors, and the load events in execution order. -/
def coordinatorLoad {W : Type} (loaders : List (DataLoader W)) (store : List W) :
    List W × List String × List LoadEvent :=
  loaders.foldl
    (fun acc l =>
      (acc.1 ++ l.writes, acc.2.1 ++ l.errs, acc.2.2 ++ [LoadEvent.loaderLoad l.name]))
    (store, [], [])

/-- Result of one invocation of the load command body. -/
structure LoadRunResult (W : Type) where
  store : List W
  trace : List LoadEvent
  err : Option String

/-- The tail of `RunE` in `NewLoadCommand` (cmd/sippy), from the point
where the selected loaders have been constructed: run them through the
metrics wrapper (`l.Load()`), append `l.Errors()` to `allErrs`, call
`sippyserver.RefreshData`, and return an error exactly when `allErrs` is
non-empty.  Nothing is ever rolled back: the store resulting from the
loaders is the store the command leaves behind. -/
def loadCommandRun {W : Type} (loaders : List (DataLoader W)) (store : List W) :
    LoadRunResult W :=
  let r := coordinatorLoad loaders store
  let allErrs := r.2.1
  let traceAfterRefresh := r.2.2 ++ [LoadEvent.refreshData]
  { store := r.1
    trace := traceAfterRefresh
    err :=
      if allErrs.isEmpty then none
      else some "errors were encountered while loading database, see logs for details" }

/-- Modelled from the spec: the test-identity normalizer of §4.2 (its
implementation is not among the given sources; only the registry
`testSuitePrefixes` is).  A registry name `p` matches a raw test name when
`p` followed by a dot is a prefix of it (raw names look like
`suiteName.testName`). -/
def suiteNameMatches (p raw : String) : Bool :=
  (p ++ ".").data.isPrefixOf raw.data

/-- Modelled from the spec: the registry names matching a raw test name,
in registry order. -/
def matchingSuites (raw : String) : List String :=
  testSuitePrefixes.filter (fun p => suiteNameMatches p raw)

/-- Modelled from the spec: pick the longest candidate (the
longest/most-specific match wins when prefixes could overlap); on equal
lengths the earlier registry entry is kept. -/
def pickLongest : List String → Option String
  | [] => none
  | p :: ps =>
    match pickLongest ps with
    | none => some p
    | some q => if p.data.length < q.data.length then some q else some p

/-- Modelled from the spec: split a raw test name into an optional suite
and the canonical test name.  When a registry name (followed by a dot)
matches, the longest such match is the suite and the remainder after the
dot is the canonical name; otherwise the raw name passes through verbatim
with no suite. -/
def normalizeTestName (raw : String) : Option String × String :=
  match pickLongest (matchingSuites raw) with
  | none => (none, raw)
  | some p => (some p, ⟨raw.data.drop (p.data.length + 1)⟩)

/-- Modelled from the spec: `models.ClusterData`, the raw job metadata
handed to `VariantManager.IdentifyVariants` (the models package is not
among the given sources).  Only inert payload fields are needed. -/
structure ClusterData where
  Platform : String
  Architecture : String
  Network : String
  Topology : String
deriving DecidableEq

/-- Modelled from the spec: an implementation of
`VariantManager.IdentifyVariants` (pkg testidentification declares only
the interface; the concrete managers are not among the given sources).
Per §4.1 it maps the job name plus raw metadata to an ordered list of
variant tags — platform, architecture, network, topology read from the
metadata, plus tags recognised in the job name — with no I/O and no
mutable state. -/
def IdentifyVariants (jobName : String) (release : String)
    (jobVariants : ClusterData) : List String :=
  let fromName :=
    (if stringContains jobName "upgrade" then ["upgrade"] else []) ++
    (if stringContains jobName "serial" then ["serial"] else []) ++
    (if stringContains jobName "single-node" then ["single-node"] else [])
  let fromMetadata :=
    (if jobVariants.Platform = "" then [] else [jobVariants.Platform]) ++
    (if jobVariants.Architecture = "" then [] else [jobVariants.Architecture]) ++
    (if jobVariants.Network = "" then [] else [jobVariants.Network]) ++
    (if jobVariants.Topology = "" then [] else [jobVariants.Topology])
  let fromRelease := if release = "" then [] else [release]
  fromMetadata ++ fromName ++ fromRelease

/-! ## Helper lemmas about the materialized-view creation loop -/

theorem createMatViewStep_matviews_mono {st : PgState} {pmv : PostgresMaterializedView}
    {x : String} (h : x ∈ st.matviews) : x ∈ (createMatViewStep st pmv).matviews := by
  unfold createMatViewStep
  split
  · exact h
  · exact List.mem_append_left _ h

theorem createMatViewStep_created_mono {st : PgState} {pmv : PostgresMaterializedView}
    {x : String × String} (h : x ∈ st.created) : x ∈ (createMatViewStep st pmv).created := by
  unfold createMatViewStep
  split
  · exact h
  · exact List.mem_append_left _ h

theorem createMatViewStep_refreshRequests (st : PgState) (pmv : PostgresMaterializedView) :
    (createMatViewStep st pmv).refreshRequests = st.refreshRequests := by
  unfold createMatViewStep
  split <;> rfl

theorem createMatViewStep_of_mem {st : PgState} {pmv : PostgresMaterializedView}
    (h : pmv.Name ∈ st.matviews) : createMatViewStep st pmv = st := by
  unfold createMatViewStep
  rw [if_pos h]

theorem foldl_createMatViewStep_matviews_mono
    (l : List PostgresMaterializedView) (st : PgState) {x : String}
    (h : x ∈ st.matviews) : x ∈ (l.foldl createMatViewStep st).matviews := by
  induction l generalizing st with
  | nil => exact h
  | cons hd tl ih => exact ih _ (createMatViewStep_matviews_mono h)

theorem foldl_createMatViewStep_created_mono
    (l : List PostgresMaterializedView) (st : PgState) {x : String × String}
    (h : x ∈ st.created) : x ∈ (l.foldl createMatViewStep st).created := by
  induction l generalizing st with
  | nil => exact h
  | cons hd tl ih => exact ih _ (createMatViewStep_created_mono h)

theorem foldl_createMatViewStep_refreshRequests
    (l : List PostgresMaterializedView) (st : PgState) :
    (l.foldl createMatViewStep st).refreshRequests = st.refreshRequests := by
  induction l generalizing st with
  | nil => rfl
  | cons hd tl ih => rw [List.foldl_cons, ih, createMatViewStep_refreshRequests]

theorem foldl_createMatViewStep_mem_names
    (l : List PostgresMaterializedView) (st : PgState) :
    ∀ pmv ∈ l, pmv.Name ∈ (l.foldl createMatViewStep st).matviews := by
  induction l generalizing st with
  | nil => intro pmv h; cases h
  | cons hd tl ih =>
    intro pmv h
    rcases List.mem_cons.mp h with h1 | h2
    · subst h1
      rw [List.foldl_cons]
      apply foldl_createMatViewStep_matviews_mono
      unfold createMatViewStep
      split
      · assumption
      · exact List.mem_append_right _ (List.mem_singleton.mpr rfl)
    · exact ih _ pmv h2

theorem foldl_createMatViewStep_of_all_mem
    (l : List PostgresMaterializedView) (st : PgState)
    (h : ∀ pmv ∈ l, pmv.Name ∈ st.matviews) :
    l.foldl createMatViewStep st = st := by
  induction l with
  | nil => rfl
  | cons hd tl ih =>
    rw [List.foldl_cons, createMatViewStep_of_mem (h hd (List.mem_cons_self hd tl)),
      ih (fun pmv hm => h pmv (List.mem_cons_of_mem _ hm))]

theorem foldl_createMatViewStep_created_of_missing
    (l : List PostgresMaterializedView) (st : PgState)
    (hnd : (l.map PostgresMaterializedView.Name).Nodup) :
    ∀ pmv ∈ l, pmv.Name ∉ st.matviews →
      (pmv.Name, applyReplaceStrings pmv.Definition pmv.ReplaceStrings) ∈
        (l.foldl createMatViewStep st).created := by
  induction l generalizing st with
  | nil => intro pmv h; cases h
  | cons hd tl ih =>
    intro pmv hmem hnot
    rw [List.map_cons, List.nodup_cons] at hnd
    rcases List.mem_cons.mp hmem with h1 | h2
    · subst h1
      rw [List.foldl_cons]
      apply foldl_createMatViewStep_created_mono
      unfold createMatViewStep
      rw [if_neg hnot]
      exact List.mem_append_right _ (List.mem_singleton.mpr rfl)
    · have hne : pmv.Name ≠ hd.Name := by
        intro he
        exact hnd.1 (he ▸ List.mem_map_of_mem PostgresMaterializedView.Name h2)
      rw [List.foldl_cons]
      apply ih _ hnd.2 pmv h2
      unfold createMatViewStep
      split
      · exact hnot
      · intro hin
        rcases List.mem_append.mp hin with hin1 | hin2
        · exact hnot hin1
        · exact hne (List.mem_singleton.mp hin2)

theorem foldl_createMatViewStep_created_of_present
    (l : List PostgresMaterializedView) (st : PgState)
    (name : String) (h : name ∈ st.matviews) :
    ∀ d, (name, d) ∈ (l.foldl createMatViewStep st).created → (name, d) ∈ st.created := by
  induction l generalizing st with
  | nil => intro d hd; exact hd
  | cons hd tl ih =>
    intro d hin
    rw [List.foldl_cons] at hin
    have hmem1 : name ∈ (createMatViewStep st hd).matviews :=
      createMatViewStep_matviews_mono h
    have h2 := ih (createMatViewStep st hd) hmem1 d hin
    revert h2
    unfold createMatViewStep
    split
    · exact id
    · intro h2
      rcases List.mem_append.mp h2 with h3 | h4
      · exact h3
      · exfalso
        have : name = hd.Name := congrArg Prod.fst (List.mem_singleton.mp h4)
        rename_i hnotmem
        exact hnotmem (this ▸ h)

/-- A postgres state in which every catalog view already exists and no
CREATE statement or refresh request has been recorded yet. -/
def allViewsPresent : PgState :=
  { matviews :=
      [ "prow_test_report_7d_matview"
      , "prow_test_analysis_by_variant_14d_matview"
      , "prow_test_analysis_by_job_14d_matview"
      , "prow_test_report_2d_matview" ]
    created := []
    refreshRequests := []
    suites := [] }

/-- The empty postgres state (fresh database). -/
def emptyPgState : PgState :=
  { matviews := [], created := [], refreshRequests := [], suites := [] }

/-- C1: for every materialized-view catalog entry, running aggregate
creation when the view already exists in storage performs no create and
returns success (nil error); running `createPostgresMaterializedViews`
any number of times is idempotent and never errors merely because a view
is already present.  Formally: when every catalog name is already in
`pg_matviews` the function leaves the state untouched and returns no
error, and a second run after any first run changes nothing and returns
no error (so by induction any number of re-runs is a no-op). -/
theorem c1_create_matviews_idempotent (st : PgState)
    (hall : ∀ pmv ∈ PostgresMatViews, pmv.Name ∈ st.matviews) :
    createPostgresMaterializedViews st = (st, none) ∧
    ∀ s : PgState,
      createPostgresMaterializedViews (createPostgresMaterializedViews s).1 =
        ((createPostgresMaterializedViews s).1, none) := by
  constructor
  · unfold createPostgresMaterializedViews
    rw [foldl_createMatViewStep_of_all_mem _ _ hall]
  · intro s
    unfold createPostgresMaterializedViews
    rw [foldl_createMatViewStep_of_all_mem]
    intro pmv hm
    exact foldl_createMatViewStep_mem_names _ _ pmv hm

/-- Witness for C1 at a concrete state with all four views present. -/
theorem c1_create_matviews_idempotent_witness :
    (∀ pmv ∈ PostgresMatViews, pmv.Name ∈ allViewsPresent.matviews) ∧
    createPostgresMaterializedViews allViewsPresent = (allViewsPresent, none) :=
  ⟨by decide, (c1_create_matviews_idempotent allViewsPresent (by decide)).1⟩

/-- C2 counterexample: the startup creation routine never requests a
refresh of an already-existing view.  In the state where every catalog
view exists, running `createPostgresMaterializedViews` issues no refresh
request at all, refuting "if it already exists a refresh of it is
requested". -/
theorem c2_startup_refresh_counterexample :
    ¬ (∀ st : PgState, ∀ pmv ∈ PostgresMatViews, pmv.Name ∈ st.matviews →
        pmv.Name ∈ ((createPostgresMaterializedViews st).1).refreshRequests) := by
  intro h
  have h0 : PostgresMatViews ≠ [] := by unfold PostgresMatViews; exact List.cons_ne_nil _ _
  have hpmv : PostgresMatViews.head h0 ∈ PostgresMatViews := List.head_mem h0
  have hname : (PostgresMatViews.head h0).Name ∈ allViewsPresent.matviews := by
    show "prow_test_report_7d_matview" ∈ allViewsPresent.matviews
    decide
  have hx := h allViewsPresent _ hpmv hname
  rw [show ((createPostgresMaterializedViews allViewsPresent).1).refreshRequests =
      allViewsPresent.refreshRequests from
    foldl_createMatViewStep_refreshRequests _ _] at hx
  cases hx

/-- C2 (amended): on startup, for every catalog entry: if the aggregate
object does not yet exist in storage it is created from the template
of the entry with the time-window boundary placeholders substituted, and if
it already exists the entry is skipped unchanged — no refresh of it is
requested by the startup creation routine (refreshes happen separately
after load cycles). -/
theorem c2_startup_create_or_skip (st : PgState) :
    (∀ pmv ∈ PostgresMatViews,
      pmv.Name ∈ ((createPostgresMaterializedViews st).1).matviews) ∧
    (∀ pmv ∈ PostgresMatViews, pmv.Name ∉ st.matviews →
      (pmv.Name, applyReplaceStrings pmv.Definition pmv.ReplaceStrings) ∈
        ((createPostgresMaterializedViews st).1).created) ∧
    (∀ pmv ∈ PostgresMatViews, pmv.Name ∈ st.matviews →
      ∀ d, (pmv.Name, d) ∈ ((createPostgresMaterializedViews st).1).created →
        (pmv.Name, d) ∈ st.created) ∧
    ((createPostgresMaterializedViews st).1).refreshRequests = st.refreshRequests := by
  refine ⟨?_, ?_, ?_, ?_⟩
  · exact foldl_createMatViewStep_mem_names _ _
  · exact foldl_createMatViewStep_created_of_missing _ _ (by decide)
  · intro pmv _ hmem d hd
    exact foldl_createMatViewStep_created_of_present _ _ _ hmem d hd
  · exact foldl_createMatViewStep_refreshRequests _ _

/-- Witness for C2 (amended) on the empty database: the 7-day report view
is created with its substituted definition recorded. -/
theorem c2_startup_create_or_skip_witness :
    ("prow_test_report_7d_matview",
      applyReplaceStrings testReportMatView
        [ ("|||START|||", "NOW() - INTERVAL \x2714 DAY\x27")
        , ("|||BOUNDARY|||", "NOW() - INTERVAL \x277 DAY\x27")
        , ("|||END|||", "NOW()") ]) ∈
      ((createPostgresMaterializedViews emptyPgState).1).created := by
  have h0 : PostgresMatViews ≠ [] := by unfold PostgresMatViews; exact List.cons_ne_nil _ _
  exact (c2_startup_create_or_skip emptyPgState).2.1 (PostgresMatViews.head h0)
    (List.head_mem h0)
    (by show "prow_test_report_7d_matview" ∉ emptyPgState.matviews; decide)

/-- C3: for the 7-day test-report aggregate (the first catalog entry),
template substitution replaces every occurrence of each boundary
placeholder: the emitted definition contains none of `|||START|||`,
`|||BOUNDARY|||`, `|||END|||`, and it contains the previous-half window
(from 14 days ago to 7 days ago) and the current-half window (from 7 days
ago to now) produced by the substitution. -/
theorem c3_seven_day_template_substitution :
    ∃ pmv : PostgresMaterializedView,
      PostgresMatViews.head? = some pmv ∧
      pmv.Name = "prow_test_report_7d_matview" ∧
      stringContains (applyReplaceStrings pmv.Definition pmv.ReplaceStrings)
        "|||START|||" = false ∧
      stringContains (applyReplaceStrings pmv.Definition pmv.ReplaceStrings)
        "|||BOUNDARY|||" = false ∧
      stringContains (applyReplaceStrings pmv.Definition pmv.ReplaceStrings)
        "|||END|||" = false ∧
      stringContains (applyReplaceStrings pmv.Definition pmv.ReplaceStrings)
        "BETWEEN NOW() - INTERVAL \x2714 DAY\x27 AND NOW() - INTERVAL \x277 DAY\x27" = true ∧
      stringContains (applyReplaceStrings pmv.Definition pmv.ReplaceStrings)
        "BETWEEN NOW() - INTERVAL \x277 DAY\x27 AND NOW()" = true := by
  refine ⟨_, rfl, rfl, ?_, ?_, ?_, ?_, ?_⟩ <;> decide

/-! ## Helper lemmas about the suite-seeding loop -/

theorem addSuiteIfMissing_suites_mono {st : PgState} {s : String} {x : String}
    (h : x ∈ st.suites) : x ∈ (addSuiteIfMissing st s).suites := by
  unfold addSuiteIfMissing
  split
  · exact h
  · exact List.mem_append_left _ h

theorem addSuiteIfMissing_of_mem {st : PgState} {s : String}
    (h : s ∈ st.suites) : addSuiteIfMissing st s = st := by
  unfold addSuiteIfMissing
  rw [if_pos h]

theorem addSuiteIfMissing_nodup {st : PgState} {s : String}
    (h : st.suites.Nodup) : (addSuiteIfMissing st s).suites.Nodup := by
  unfold addSuiteIfMissing
  split
  · exact h
  · rename_i hnot
    rw [List.nodup_append_comm]
    exact List.nodup_cons.mpr ⟨hnot, h⟩

theorem foldl_addSuiteIfMissing_suites_mono
    (l : List String) (st : PgState) {x : String}
    (h : x ∈ st.suites) : x ∈ (l.foldl addSuiteIfMissing st).suites := by
  induction l generalizing st with
  | nil => exact h
  | cons hd tl ih => exact ih _ (addSuiteIfMissing_suites_mono h)

theorem foldl_addSuiteIfMissing_mem
    (l : List String) (st : PgState) :
    ∀ s ∈ l, s ∈ (l.foldl addSuiteIfMissing st).suites := by
  induction l generalizing st with
  | nil => intro s h; cases h
  | cons hd tl ih =>
    intro s h
    rcases List.mem_cons.mp h with h1 | h2
    · subst h1
      rw [List.foldl_cons]
      apply foldl_addSuiteIfMissing_suites_mono
      unfold addSuiteIfMissing
      split
      · assumption
      · exact List.mem_append_right _ (List.mem_singleton.mpr rfl)
    · exact ih _ s h2

theorem foldl_addSuiteIfMissing_of_all_mem
    (l : List String) (st : PgState)
    (h : ∀ s ∈ l, s ∈ st.suites) :
    l.foldl addSuiteIfMissing st = st := by
  induction l with
  | nil => rfl
  | cons hd tl ih =>
    rw [List.foldl_cons, addSuiteIfMissing_of_mem (h hd (List.mem_cons_self hd tl)),
      ih (fun s hm => h s (List.mem_cons_of_mem _ hm))]

theorem foldl_addSuiteIfMissing_nodup
    (l : List String) (st : PgState)
    (h : st.suites.Nodup) : (l.foldl addSuiteIfMissing st).suites.Nodup := by
  induction l generalizing st with
  | nil => exact h
  | cons hd tl ih => exact ih _ (addSuiteIfMissing_nodup h)

/-- C6: after startup seeding, every name in the fixed suite registry
(openshift-tests, openshift-tests-upgrade, sippy) exists as a Suite row;
seeding never deletes a Suite row; re-running `populateTestSuitesInDB` is
a no-op (so no duplicate rows are created, and a duplicate-free table
stays duplicate-free). -/
theorem c6_suite_registry_seeded (st : PgState) :
    (∀ s ∈ testSuitePrefixes, s ∈ (populateTestSuitesInDB st).suites) ∧
    (∀ x ∈ st.suites, x ∈ (populateTestSuitesInDB st).suites) ∧
    populateTestSuitesInDB (populateTestSuitesInDB st) = populateTestSuitesInDB st ∧
    (st.suites.Nodup → ((populateTestSuitesInDB st).suites).Nodup) := by
  refine ⟨?_, ?_, ?_, ?_⟩
  · exact foldl_addSuiteIfMissing_mem _ _
  · intro x hx
    exact foldl_addSuiteIfMissing_suites_mono _ _ hx
  · exact foldl_addSuiteIfMissing_of_all_mem _ _ (foldl_addSuiteIfMissing_mem _ _)
  · exact foldl_addSuiteIfMissing_nodup _ _

/-- Witness for C6 on the empty database: all three registry suites exist
afterwards and the table is duplicate-free. -/
theorem c6_suite_registry_seeded_witness :
    "openshift-tests" ∈ (populateTestSuitesInDB emptyPgState).suites ∧
    "openshift-tests-upgrade" ∈ (populateTestSuitesInDB emptyPgState).suites ∧
    "sippy" ∈ (populateTestSuitesInDB emptyPgState).suites ∧
    ((populateTestSuitesInDB emptyPgState).suites).Nodup := by
  have h := c6_suite_registry_seeded emptyPgState
  exact ⟨h.1 _ (by decide), h.1 _ (by decide), h.1 _ (by decide), h.2.2.2 (by decide)⟩

/-! ## Helper lemmas about the load command -/

theorem coordinatorLoad_foldl_eq {W : Type} (loaders : List (DataLoader W))
    (init : List W × List String × List LoadEvent) :
    loaders.foldl
      (fun acc l =>
        (acc.1 ++ l.writes, acc.2.1 ++ l.errs, acc.2.2 ++ [LoadEvent.loaderLoad l.name]))
      init =
    (init.1 ++ (loaders.map DataLoader.writes).flatten,
     init.2.1 ++ (loaders.map DataLoader.errs).flatten,
     init.2.2 ++ loaders.map (fun l => LoadEvent.loaderLoad l.name)) := by
  induction loaders generalizing init with
  | nil => simp
  | cons hd tl ih => rw [List.foldl_cons, ih]; simp

theorem coordinatorLoad_eq {W : Type} (loaders : List (DataLoader W)) (store : List W) :
    coordinatorLoad loaders store =
      (store ++ (loaders.map DataLoader.writes).flatten,
       (loaders.map DataLoader.errs).flatten,
       loaders.map (fun l => LoadEvent.loaderLoad l.name)) := by
  unfold coordinatorLoad
  rw [coordinatorLoad_foldl_eq]
  simp

theorem loadCommandRun_store {W : Type} (loaders : List (DataLoader W)) (store : List W) :
    (loadCommandRun loaders store).store = store ++ (loaders.map DataLoader.writes).flatten := by
  unfold loadCommandRun
  rw [coordinatorLoad_eq]

theorem loadCommandRun_trace {W : Type} (loaders : List (DataLoader W)) (store : List W) :
    (loadCommandRun loaders store).trace =
      loaders.map (fun l => LoadEvent.loaderLoad l.name) ++ [LoadEvent.refreshData] := by
  unfold loadCommandRun
  rw [coordinatorLoad_eq]

theorem loadCommandRun_err {W : Type} (loaders : List (DataLoader W)) (store : List W) :
    (loadCommandRun loaders store).err =
      if ((loaders.map DataLoader.errs).flatten).isEmpty then none
      else some "errors were encountered while loading database, see logs for details" := by
  unfold loadCommandRun
  rw [coordinatorLoad_eq]

/-- C4: the load invocation (from the point where all selected loaders
ran) returns a failure indication if and only if the fatal-error
sequence collected by the coordinator (`Errors()`) is non-empty; when it fails,
writes already committed by the loaders are still in the store the
command leaves behind — nothing is rolled back, and the pre-existing
store content is also retained. -/
theorem c4_load_fails_iff_errors_nonempty (W : Type)
    (loaders : List (DataLoader W)) (store : List W) :
    ((loadCommandRun loaders store).err.isSome = true ↔
      (coordinatorLoad loaders store).2.1 ≠ []) ∧
    (∀ l ∈ loaders, ∀ w ∈ l.writes, w ∈ (loadCommandRun loaders store).store) ∧
    (∀ w ∈ store, w ∈ (loadCommandRun loaders store).store) := by
  refine ⟨?_, ?_, ?_⟩
  · rw [loadCommandRun_err, coordinatorLoad_eq]
    rcases hJ : (loaders.map DataLoader.errs).flatten with _ | ⟨e, es⟩ <;> simp
  · intro l hl w hw
    rw [loadCommandRun_store]
    exact List.mem_append_right _ (List.mem_flatten.mpr ⟨l.writes, List.mem_map_of_mem _ hl, hw⟩)
  · intro w hw
    rw [loadCommandRun_store]
    exact List.mem_append_left _ hw

/-- A loader that commits a write and reports a fatal error, used to
witness the load-command claims on concrete input. -/
def demoProwLoader : DataLoader String :=
  { name := "prow", writes := ["jobrun-1"], errs := ["connector auth failure"] }

/-- A one-loader invocation built from `demoProwLoader`. -/
def demoLoaders : List (DataLoader String) :=
  [demoProwLoader]

/-- Witness for C4: with a loader that reported a fatal error, the
invocation fails, and the write that loader committed is still in the
store it leaves behind. -/
theorem c4_load_fails_iff_errors_nonempty_witness :
    (loadCommandRun demoLoaders ([] : List String)).err.isSome = true ∧
    "jobrun-1" ∈ (loadCommandRun demoLoaders ([] : List String)).store := by
  have h := c4_load_fails_iff_errors_nonempty String demoLoaders []
  refine ⟨h.1.mpr (by decide), ?_⟩
  exact h.2.1 demoProwLoader (by unfold demoLoaders; exact List.mem_cons_self _ _)
    "jobrun-1" (by show "jobrun-1" ∈ demoProwLoader.writes; decide)

/-- C5: in every load invocation, the aggregate refresh (`RefreshData`)
runs strictly after every selected loader finished its `Load` (every load
event precedes the refresh event in the invocation trace), and the
refresh happens even when loaders reported fatal errors — the error
return is only produced after the refresh, so a refresh event is in the
trace whenever the invocation fails. -/
theorem c5_refresh_after_all_loaders {W : Type}
    (loaders : List (DataLoader W)) (store : List W) :
    (∀ l ∈ loaders, LoadEvent.loaderLoad l.name ∈ (loadCommandRun loaders store).trace) ∧
    LoadEvent.refreshData ∈ (loadCommandRun loaders store).trace ∧
    ((loadCommandRun loaders store).err.isSome = true →
      LoadEvent.refreshData ∈ (loadCommandRun loaders store).trace) ∧
    ∀ (i j : Nat) (hi : i < (loadCommandRun loaders store).trace.length)
      (hj : j < (loadCommandRun loaders store).trace.length),
      (∃ nm, (loadCommandRun loaders store).trace.get ⟨i, hi⟩ = LoadEvent.loaderLoad nm) →
      (loadCommandRun loaders store).trace.get ⟨j, hj⟩ = LoadEvent.refreshData →
      i < j := by
  have htr := loadCommandRun_trace loaders store
  refine ⟨?_, ?_, ?_, ?_⟩
  · intro l hl
    rw [htr]
    exact List.mem_append_left _ (List.mem_map_of_mem _ hl)
  · rw [htr]
    exact List.mem_append_right _ (List.mem_singleton.mpr rfl)
  · intro _
    rw [htr]
    exact List.mem_append_right _ (List.mem_singleton.mpr rfl)
  · intro i j hi hj hload hrefresh
    have hlen : (loadCommandRun loaders store).trace.length =
        loaders.length + 1 := by rw [htr]; simp
    rcases hload with ⟨nm, hload⟩
    rw [List.get_eq_getElem] at hload hrefresh
    -- the refresh event can only sit at the final index
    have hjge : loaders.length ≤ j := by
      by_contra hlt
      push_neg at hlt
      have hjm : j < (loaders.map (fun l => LoadEvent.loaderLoad l.name)).length := by
        simpa using hlt
      have : (loadCommandRun loaders store).trace[j] =
          (loaders.map (fun l => LoadEvent.loaderLoad l.name))[j] := by
        simp only [htr]
        exact List.getElem_append_left hjm
      rw [this] at hrefresh
      have : (loaders.map (fun l => LoadEvent.loaderLoad l.name))[j] ∈
          loaders.map (fun l => LoadEvent.loaderLoad l.name) := List.getElem_mem _
      rw [hrefresh] at this
      rcases List.mem_map.mp this with ⟨l, _, hl⟩
      cases hl
    -- a load event can only sit before the final index
    have hilt : i < loaders.length := by
      by_contra hge
      push_neg at hge
      have hieq : i = loaders.length := by omega
      have : (loadCommandRun loaders store).trace[i] = LoadEvent.refreshData := by
        simp only [htr]
        rw [List.getElem_append_right (by simpa using hge)]
        simp [hieq]
      rw [this] at hload
      cases hload
    omega

/-- Witness for C5: in the one-loader failing invocation, the refresh
event is in the trace, and the load event of the loader (index 0) precedes
the refresh event (index 1). -/
theorem c5_refresh_after_all_loaders_witness :
    LoadEvent.refreshData ∈ (loadCommandRun demoLoaders ([] : List String)).trace ∧
    (0 : Nat) < 1 := by
  have h := c5_refresh_after_all_loaders demoLoaders ([] : List String)
  refine ⟨h.2.1, ?_⟩
  exact h.2.2.2 0 1 (by decide) (by decide) ⟨"prow", by decide⟩ (by decide)

/-! ## Helper lemmas about test-name normalization -/

/-- Bridge between the boolean prefix test and the prefix relation. -/
theorem isPrefixOfBool_iff {l1 l2 : List Char} :
    l1.isPrefixOf l2 = true ↔ l1 <+: l2 :=
  List.isPrefixOf_iff_prefix

/-- Two prefixes of the same list are comparable. -/
theorem listPrefixesComparable {l1 l2 l3 : List Char}
    (h1 : l1 <+: l3) (h2 : l2 <+: l3) : l1 <+: l2 ∨ l2 <+: l1 :=
  (Nat.le_total l1.length l2.length).imp
    (fun hle => List.prefix_of_prefix_length_le h1 h2 hle)
    (fun hle => List.prefix_of_prefix_length_le h2 h1 hle)

/-- Two registry names whose dotted forms are not prefixes of one another
cannot both match the same raw test name. -/
theorem suiteNameMatches_excl {p q raw : String}
    (hne1 : ((p ++ ".").data).isPrefixOf ((q ++ ".").data) = false)
    (hne2 : ((q ++ ".").data).isPrefixOf ((p ++ ".").data) = false)
    (hp : suiteNameMatches p raw = true) :
    suiteNameMatches q raw = false := by
  cases hq : suiteNameMatches q raw
  · rfl
  · exfalso
    unfold suiteNameMatches at hp hq
    rw [isPrefixOfBool_iff] at hp hq
    rcases listPrefixesComparable hp hq with h | h
    · rw [← isPrefixOfBool_iff] at h
      rw [h] at hne1
      cases hne1
    · rw [← isPrefixOfBool_iff] at h
      rw [h] at hne2
      cases hne2

/-- C7: for every raw test name, if no registered suite prefix (followed
by a dot) matches, the name passes through verbatim with no suite; and if
a registered suite prefix matches, normalization yields that suite and
the remainder after the dot as canonical name, that match being the
longest among all matching registered names. -/
theorem c7_test_name_normalization (raw : String) :
    ((∀ p ∈ testSuitePrefixes, suiteNameMatches p raw = false) →
      normalizeTestName raw = (none, raw)) ∧
    (∀ p ∈ testSuitePrefixes, suiteNameMatches p raw = true →
      normalizeTestName raw = (some p, ⟨raw.data.drop (p.data.length + 1)⟩) ∧
      ∀ q ∈ testSuitePrefixes, suiteNameMatches q raw = true →
        q.data.length ≤ p.data.length) := by
  constructor
  · intro hnone
    have h1 := hnone "openshift-tests" (by decide)
    have h2 := hnone "openshift-tests-upgrade" (by decide)
    have h3 := hnone "sippy" (by decide)
    have hms : matchingSuites raw = [] := by
      unfold matchingSuites testSuitePrefixes
      simp [h1, h2, h3]
    unfold normalizeTestName
    rw [hms]
    rfl
  · intro p hp hm
    rcases (show p = "openshift-tests" ∨ p = "openshift-tests-upgrade" ∨ p = "sippy" by
      simpa [testSuitePrefixes] using hp) with rfl | rfl | rfl
    · have h2 : suiteNameMatches "openshift-tests-upgrade" raw = false :=
        suiteNameMatches_excl (by decide) (by decide) hm
      have h3 : suiteNameMatches "sippy" raw = false :=
        suiteNameMatches_excl (by decide) (by decide) hm
      have hms : matchingSuites raw = ["openshift-tests"] := by
        unfold matchingSuites testSuitePrefixes
        simp [hm, h2, h3]
      refine ⟨by unfold normalizeTestName; rw [hms]; rfl, ?_⟩
      intro q hq hmq
      rcases (show q = "openshift-tests" ∨ q = "openshift-tests-upgrade" ∨ q = "sippy" by
        simpa [testSuitePrefixes] using hq) with rfl | rfl | rfl
      · exact Nat.le_refl _
      · rw [hmq] at h2; cases h2
      · rw [hmq] at h3; cases h3
    · have h1 : suiteNameMatches "openshift-tests" raw = false :=
        suiteNameMatches_excl (by decide) (by decide) hm
      have h3 : suiteNameMatches "sippy" raw = false :=
        suiteNameMatches_excl (by decide) (by decide) hm
      have hms : matchingSuites raw = ["openshift-tests-upgrade"] := by
        unfold matchingSuites testSuitePrefixes
        simp [hm, h1, h3]
      refine ⟨by unfold normalizeTestName; rw [hms]; rfl, ?_⟩
      intro q hq hmq
      rcases (show q = "openshift-tests" ∨ q = "openshift-tests-upgrade" ∨ q = "sippy" by
        simpa [testSuitePrefixes] using hq) with rfl | rfl | rfl
      · rw [hmq] at h1; cases h1
      · exact Nat.le_refl _
      · rw [hmq] at h3; cases h3
    · have h1 : suiteNameMatches "openshift-tests" raw = false :=
        suiteNameMatches_excl (by decide) (by decide) hm
      have h2 : suiteNameMatches "openshift-tests-upgrade" raw = false :=
        suiteNameMatches_excl (by decide) (by decide) hm
      have hms : matchingSuites raw = ["sippy"] := by
        unfold matchingSuites testSuitePrefixes
        simp [hm, h1, h2]
      refine ⟨by unfold normalizeTestName; rw [hms]; rfl, ?_⟩
      intro q hq hmq
      rcases (show q = "openshift-tests" ∨ q = "openshift-tests-upgrade" ∨ q = "sippy" by
        simpa [testSuitePrefixes] using hq) with rfl | rfl | rfl
      · rw [hmq] at h1; cases h1
      · rw [hmq] at h2; cases h2
      · exact Nat.le_refl _

/-- Witness for C7: a suite-prefixed name is split at the dot of the
longer registered suite, and an unmatched name passes through verbatim. -/
theorem c7_test_name_normalization_witness :
    normalizeTestName "openshift-tests-upgrade.cluster remains available" =
      (some "openshift-tests-upgrade", "cluster remains available") ∧
    normalizeTestName "unregistered test name" = (none, "unregistered test name") := by
  constructor
  · exact ((c7_test_name_normalization
      "openshift-tests-upgrade.cluster remains available").2
      "openshift-tests-upgrade" (by decide) (by decide)).1
  · exact (c7_test_name_normalization "unregistered test name").1 (by decide)

/-- Concrete raw job metadata used to witness the classifier claim. -/
def demoClusterData : ClusterData :=
  { Platform := "aws", Architecture := "amd64", Network := "sdn", Topology := "ha" }

/-- C8: `IdentifyVariants` is deterministic and pure — its result is
fully determined by the job name, the release and the raw job metadata,
so two calls with identical inputs return an identical ordered list of
variant strings, with no dependence on hidden mutable state. -/
theorem c8_identifyVariants_deterministic
    (jobName1 jobName2 release1 release2 : String) (cd1 cd2 : ClusterData)
    (hj : jobName1 = jobName2) (hr : release1 = release2) (hc : cd1 = cd2) :
    IdentifyVariants jobName1 release1 cd1 = IdentifyVariants jobName2 release2 cd2 := by
  subst hj
  subst hr
  subst hc
  rfl

/-- Witness for C8 at a concrete job. -/
theorem c8_identifyVariants_deterministic_witness :
    IdentifyVariants "periodic-ci-e2e-aws-upgrade" "4.12" demoClusterData =
      IdentifyVariants "periodic-ci-e2e-aws-upgrade" "4.12" demoClusterData :=
  c8_identifyVariants_deterministic _ _ _ _ _ _ rfl rfl rfl

/-! ## Helper lemmas about batch chunking -/

theorem chunkRows_length_le {α : Type} (n : Nat) (hn : 1 ≤ n) :
    ∀ (xs : List α) (chunk : List α), chunk ∈ chunkRows n xs → chunk.length ≤ n
  | [], chunk, h => by simp [chunkRows] at h
  | x :: xs, chunk, h => by
    simp only [chunkRows] at h
    rcases List.mem_cons.mp h with rfl | h2
    · simp only [List.length_cons, List.length_take]
      omega
    · exact chunkRows_length_le n hn (List.drop (n - 1) xs) chunk h2
termination_by xs _ _ => xs.length
decreasing_by
  simp only [List.length_drop, List.length_cons]
  omega

theorem chunkRows_flatten {α : Type} (n : Nat) :
    ∀ (xs : List α), (chunkRows n xs).flatten = xs
  | [] => by simp [chunkRows]
  | x :: xs => by
    simp only [chunkRows, List.flatten_cons]
    rw [chunkRows_flatten n (List.drop (n - 1) xs)]
    simp [List.take_append_drop]
termination_by xs => xs.length
decreasing_by
  simp only [List.length_drop, List.length_cons]
  omega

/-- C9: every DB client returned by `New` has `BatchSize = 1024`, which
is at most the storage-engine ceiling of 2^16 rows per insert
statement; chunking a batch write by `BatchSize` yields sub-batches of at
most `BatchSize` rows each (hence the engine ceiling is never exceeded by
a single statement), and the sub-batches together carry exactly the
requested rows. -/
theorem c9_batch_size_within_engine_ceiling {α : Type} (st : PgState) (rows : List α) :
    ((NewDBClient st).1.BatchSize = 1024 ∧
      (NewDBClient st).1.BatchSize ≤ postgresMaxRowsPerInsert) ∧
    (∀ chunk ∈ chunkRows (NewDBClient st).1.BatchSize rows,
      chunk.length ≤ (NewDBClient st).1.BatchSize ∧
      chunk.length ≤ postgresMaxRowsPerInsert) ∧
    (chunkRows (NewDBClient st).1.BatchSize rows).flatten = rows := by
  have hbs : (NewDBClient st).1.BatchSize = 1024 := rfl
  have hceil : (1024 : Nat) ≤ postgresMaxRowsPerInsert := by
    unfold postgresMaxRowsPerInsert
    norm_num
  refine ⟨⟨hbs, by rw [hbs]; exact hceil⟩, ?_, chunkRows_flatten _ _⟩
  intro chunk hc
  have h1 := chunkRows_length_le (NewDBClient st).1.BatchSize
    (by rw [hbs]; omega) rows chunk hc
  exact ⟨h1, le_trans h1 (by rw [hbs]; exact hceil)⟩

/-- Witness for C9: a concrete one-row batch against the client built on
the empty database is one chunk of length at most the batch size. -/
theorem c9_batch_size_within_engine_ceiling_witness :
    (NewDBClient emptyPgState).1.BatchSize = 1024 ∧
    ([(0 : Nat)].length ≤ (NewDBClient emptyPgState).1.BatchSize) := by
  have h := c9_batch_size_within_engine_ceiling emptyPgState [(0 : Nat)]
  refine ⟨h.1.1, ?_⟩
  have hm : [(0 : Nat)] ∈ chunkRows (NewDBClient emptyPgState).1.BatchSize [(0 : Nat)] := by
    rw [h.1.1]
    simp [chunkRows]
  exact (h.2.1 [(0 : Nat)] hm).1

/-- C10: `LastID` is total over query outcomes: when the ordered-id query
fails (such as for a missing table) it returns 0 rather than propagating
an error, an empty table also yields 0, and a successful scan returns the
scanned id — the Go signature returns a plain `int`, so no error is ever
returned to the caller. -/
theorem c10_lastID_total_returns_zero_on_failure
    (tables : List (String × List Int)) (table : String) :
    (∀ msg, lastIDQuery tables table = QueryOutcome.failed msg →
      LastID tables table = 0) ∧
    (tables.lookup table = none → LastID tables table = 0) ∧
    (∀ ids, tables.lookup table = some ids → ids = [] → LastID tables table = 0) ∧
    (∀ v, lastIDQuery tables table = QueryOutcome.ok v → LastID tables table = v) := by
  refine ⟨?_, ?_, ?_, ?_⟩
  · intro msg h
    unfold LastID
    rw [h]
  · intro h
    unfold LastID lastIDQuery
    rw [h]
  · intro ids h hnil
    subst hnil
    unfold LastID lastIDQuery
    rw [h]
    rfl
  · intro v h
    unfold LastID
    rw [h]

/-- Witness for C10: a missing table yields 0, a populated table yields
its highest id. -/
theorem c10_lastID_total_returns_zero_on_failure_witness :
    LastID [("tests", [(5 : Int), 3])] "prow_job_runs" = 0 ∧
    LastID [("tests", [(5 : Int), 3])] "tests" = 5 := by
  have h1 := c10_lastID_total_returns_zero_on_failure [("tests", [(5 : Int), 3])] "prow_job_runs"
  have h2 := c10_lastID_total_returns_zero_on_failure [("tests", [(5 : Int), 3])] "tests"
  exact ⟨h1.2.1 (by decide), h2.2.2.2 5 (by decide)⟩

end Sippy
